import Mathlib

/-!
Verification development for the MLForge model-serving control plane
(`backend/app`).  Python functions and handlers are shallowly embedded as
executable Lean definitions; external collaborators (ONNX Runtime, numpy,
redis client, the filesystem, the Celery broker) appear as explicit
parameters.  Theorems at the end settle the specification claims.
-/

namespace MLForge

/-! ## Semantic versioning (`app/crud/ml_model.py`) -/

/-- A parsed version, the tuple `(major, minor, patch, prerelease)`
returned by `parse_semver`. -/
structure Semver where
  major : Int
  minor : Int
  patch : Int
  prerelease : String
deriving DecidableEq, Repr

/-- Digits-to-integer conversion, as Python `int()` on a digit string. -/
def digitsToInt (ds : List Char) : Int :=
  ds.foldl (fun acc c => acc * 10 + ((c.toNat : Int) - 48)) 0

/-- Leading run of ASCII digits, and the rest (`\d+` is greedy and cannot
overlap `.` or `-`). -/
def splitDigits (cs : List Char) : List Char × List Char :=
  (cs.takeWhile Char.isDigit, cs.dropWhile Char.isDigit)

/-- The match of the anchored regex
`^(\d+)\.(\d+)\.(\d+)(?:-(.+))?$` from `parse_semver`:
`none` when the version string does not parse. -/
def semverMatch (version : String) : Option Semver :=
  let (d1, r1) := splitDigits version.data
  if d1 = [] then none
  else
    match r1 with
    | '.' :: r1' =>
      let (d2, r2) := splitDigits r1'
      if d2 = [] then none
      else
        match r2 with
        | '.' :: r2' =>
          let (d3, r3) := splitDigits r2'
          if d3 = [] then none
          else
            match r3 with
            | [] => some ⟨digitsToInt d1, digitsToInt d2, digitsToInt d3, ""⟩
            | '-' :: rest =>
              if rest = [] then none
              else some ⟨digitsToInt d1, digitsToInt d2, digitsToInt d3,
                    String.mk rest⟩
            | _ => none
        | _ => none
    | _ => none

/-- `parse_semver`: non-semver strings are treated as
`(0, 0, 0, original_string)`. -/
def parse_semver (version : String) : Semver :=
  match semverMatch version with
  | some s => s
  | none => ⟨0, 0, 0, version⟩

/-- Python string `<` (lexicographic on code points) on char lists. -/
def pyCharsLt : List Char → List Char → Bool
  | _, [] => false
  | [], _ :: _ => true
  | a :: as, b :: bs =>
    if a.val < b.val then true
    else if b.val < a.val then false
    else pyCharsLt as bs

/-- Python string `<` comparison. -/
def pyStrLt (a b : String) : Bool := pyCharsLt a.data b.data

/-- Python `<` on the `(major, minor, patch, prerelease)` tuples produced
by `parse_semver` (lexicographic tuple comparison, strings compared as
Python strings).  This is the order used by `sort(key=parse_semver)` and
`max(..., key=parse_semver)`. -/
def semverKeyLt (x y : Semver) : Bool :=
  if x.major < y.major then true
  else if y.major < x.major then false
  else if x.minor < y.minor then true
  else if y.minor < x.minor then false
  else if x.patch < y.patch then true
  else if y.patch < x.patch then false
  else pyStrLt x.prerelease y.prerelease

/-- `compare_versions(v1, v2)`: -1 / 0 / 1 with the explicit rule that an
empty prerelease (stable) beats any non-empty prerelease. -/
def compare_versions (v1 v2 : String) : Int :=
  let p1 := parse_semver v1
  let p2 := parse_semver v2
  if p1.major < p2.major then -1
  else if p1.major > p2.major then 1
  else if p1.minor < p2.minor then -1
  else if p1.minor > p2.minor then 1
  else if p1.patch < p2.patch then -1
  else if p1.patch > p2.patch then 1
  else
    if p1.prerelease = p2.prerelease then 0
    else if p1.prerelease = "" then 1
    else if p2.prerelease = "" then -1
    else if pyStrLt p1.prerelease p2.prerelease then -1
    else 1

/-- Stable insertion of `x` into a list already sorted descending by the
key; ties keep `x` (the earlier element of the original list) first.  This
reproduces Python's stable `list.sort(key=..., reverse=True)`. -/
def insertDescBy (lt : α → α → Bool) (x : α) : List α → List α
  | [] => [x]
  | y :: ys => if lt x y then y :: insertDescBy lt x ys else x :: y :: ys

/-- Stable descending sort by a strict comparison, as Python
`sort(key=k, reverse=True)`. -/
def sortDescBy (lt : α → α → Bool) : List α → List α
  | [] => []
  | x :: xs => insertDescBy lt x (sortDescBy lt xs)

/-- `CRUDModel.get_versions_by_name`, restricted to the `version` column of
the rows sharing the requested name (in database order):
`models.sort(key=lambda m: parse_semver(m.version), reverse=True)`. -/
def get_versions_by_name (versions : List String) : List String :=
  sortDescBy (fun a b => semverKeyLt (parse_semver a) (parse_semver b)) versions

/-- `CRUDModel.get_latest_by_name` on the same projection:
`max(models, key=lambda m: parse_semver(m.version))` (Python `max` keeps
the first element whose key is maximal). -/
def get_latest_by_name (versions : List String) : Option String :=
  match versions with
  | [] => none
  | v :: vs =>
    some (vs.foldl
      (fun best x =>
        if semverKeyLt (parse_semver best) (parse_semver x) then x else best)
      v)

/-! ## Data model (`app/models/ml_model.py`) -/

/-- `ModelStatus`. -/
inductive ModelStatus
  | pending | uploaded | validating | ready | error | archived
deriving DecidableEq, Repr

/-- `ModelStatus.value` (the string value of the Python enum member). -/
def ModelStatus.value : ModelStatus → String
  | .pending => "pending"
  | .uploaded => "uploaded"
  | .validating => "validating"
  | .ready => "ready"
  | .error => "error"
  | .archived => "archived"

/-- Opaque JSON payloads (inputs, outputs, metadata). -/
inductive JsonVal
  | null
  | bool (b : Bool)
  | num (n : Int)
  | str (s : String)
  | arr (xs : List JsonVal)
  | obj (fields : List (String × JsonVal))
deriving Repr

/-- `dict.get` on a JSON object; `none` off an object or a missing key. -/
def JsonVal.get (j : JsonVal) (k : String) : Option JsonVal :=
  match j with
  | .obj fields =>
    match fields.find? (fun f => f.1 == k) with
    | some f => some f.2
    | none => none
  | _ => none

/-- A Python `dict[str, Any]` of JSON values. -/
abbrev PyDict := List (String × JsonVal)

/-- `TensorSchema` (`app/services/onnx.py`). -/
structure TensorSchema where
  name : String
  dtype : String
  shape : List (Option Int)
deriving Repr

/-- The relevant columns of an `ml_models` row. -/
structure MLModelRow where
  id : String
  name : String
  version : String
  status : ModelStatus
  file_path : Option String
  file_hash : Option String
  input_schema : Option (List TensorSchema)
  output_schema : Option (List TensorSchema)
  model_metadata : Option JsonVal
deriving Repr

/-- `MLModel.is_committed`. -/
def MLModelRow.is_committed (m : MLModelRow) : Bool :=
  m.status == ModelStatus.ready

/-- The message of the `ValueError` raised by `MLModel.assert_committed`. -/
def boundaryMsg (m : MLModelRow) : String :=
  "Model " ++ m.id ++ " has not crossed the pipeline commitment boundary. " ++
  "Current status: " ++ m.status.value ++ ". " ++
  "The model must be validated before inference operations."

/-- `MLModel.assert_committed`: `ok` or the `ValueError` message. -/
def MLModelRow.assert_committed (m : MLModelRow) : Except String Unit :=
  if m.is_committed then Except.ok () else Except.error (boundaryMsg m)

/-! ## ONNX engine adapter (`app/services/onnx.py`)

`ONNXService` wraps the opaque ONNX Runtime.  The runtime's behaviour is a
parameter: `loadSess` is `_load_session` (compiling a file into a session),
`conv` is the numpy dtype coercion `np.array(data, dtype=...)` inside
`_prepare_inputs` (it can fail, e.g. on ragged nested lists), and `sessRun`
is `session.run` together with the elapsed-time measurement.  The
filesystem is the predicate `fs` (`Path.exists`), and `resolve` is
`Path.resolve` (canonicalization). -/

/-- ONNX error hierarchy as raised by `ONNXService` (each constructor
carries the exception message). -/
inductive OnnxErr
  | loadError (msg : String)
  | inputError (msg : String)
  | inferenceError (msg : String)
  | pciv (msg : String)
deriving Repr

/-- One entry of `session.get_inputs()`: tensor name and ONNX type string. -/
structure TensorMetaI where
  name : String
  type : String
deriving Repr

/-- A compiled session as the service observes it: input metas and output
names. -/
structure SessionEntry where
  inputs : List TensorMetaI
  outputs : List String
deriving Repr

/-- Association-list lookup (Python `dict` membership / indexing). -/
def lookupA (l : List (String × α)) (k : String) : Option α :=
  match l.find? (fun p => p.1 == k) with
  | some p => some p.2
  | none => none

/-- Association-list deletion (Python `del d[k]`). -/
def eraseA (l : List (String × α)) (k : String) : List (String × α) :=
  l.filter (fun p => p.1 != k)

/-- Association-list insertion (Python `d[k] = v` on a fresh key). -/
def insertA (l : List (String × α)) (k : String) (v : α) :
    List (String × α) :=
  l ++ [(k, v)]

/-- The message of `PostCommitmentInvariantViolation` raised by
`get_cached_session`. -/
def pcivMsg (path : String) : String :=
  "POST-COMMITMENT INVARIANT VIOLATED. " ++
  "Invariant: file_path points to a valid ONNX file. " ++
  "Observed: file '" ++ path ++ "' no longer exists. " ++
  "The pipeline contract is broken. Execution cannot continue."

/-- `ONNXService.get_cached_session`.  Returns the result together with the
session cache after the call (the call can evict or insert).  `loadSess`
models `_load_session`; its failure message is wrapped by `load_session`
into an `ONNXLoadError`. -/
def getCachedSession (resolve : String → String) (fs : String → Bool)
    (loadSess : String → Except String SessionEntry)
    (cache : List (String × SessionEntry)) (model_path : String) :
    Except OnnxErr SessionEntry × List (String × SessionEntry) :=
  let key := resolve model_path
  match lookupA cache key with
  | some entry =>
    if fs key then (Except.ok entry, cache)
    else (Except.error (OnnxErr.pciv (pcivMsg key)), eraseA cache key)
  | none =>
    if fs key then
      match loadSess key with
      | Except.ok e => (Except.ok e, insertA cache key e)
      | Except.error m =>
        (Except.error (OnnxErr.loadError ("Failed to load model: " ++ m)),
          cache)
    else
      (Except.error (OnnxErr.loadError ("Model file not found: " ++ key)),
        cache)

/-- `ONNXService._prepare_inputs`: walk the provided inputs, skip names the
session does not declare, coerce the rest; any coercion failure aborts the
whole preparation (caught by `run_inference` as an input error). -/
def prepareInputs (conv : String → JsonVal → Option JsonVal)
    (metas : List TensorMetaI) :
    List (String × JsonVal) → Option (List (String × JsonVal))
  | [] => some []
  | (n, d) :: rest =>
    match metas.find? (fun m => m.name == n) with
    | none => prepareInputs conv metas rest
    | some meta =>
      match conv meta.type d with
      | none => none
      | some arr =>
        match prepareInputs conv metas rest with
        | none => none
        | some acc => some ((n, arr) :: acc)

/-- The declared input names absent from the provided inputs:
`set(input_names) - set(input_data.keys())` in `run_inference`. -/
def missingInputs (entry : SessionEntry) (input_data : List (String × JsonVal)) :
    List String :=
  (entry.inputs.map (fun i => i.name)).filter
    (fun n => !(input_data.map Prod.fst).contains n)

/-- `InferenceResult`. -/
structure InferenceResult where
  outputs : List (String × JsonVal)
  inference_time_ms : Int
deriving Repr

/-- `ONNXService.run_inference`.  `sessRun` is `session.run` plus the
timing of the call; a runtime failure carries the exception message. -/
def run_inference (resolve : String → String) (fs : String → Bool)
    (loadSess : String → Except String SessionEntry)
    (conv : String → JsonVal → Option JsonVal)
    (sessRun : SessionEntry → List (String × JsonVal) →
      Except String (List JsonVal × Int))
    (cache : List (String × SessionEntry)) (model_path : String)
    (input_data : List (String × JsonVal)) :
    Except OnnxErr InferenceResult × List (String × SessionEntry) :=
  match getCachedSession resolve fs loadSess cache model_path with
  | (Except.error e, c') => (Except.error e, c')
  | (Except.ok entry, c') =>
    if missingInputs entry input_data ≠ [] then
      (Except.error (OnnxErr.inputError
        ("Missing required inputs: "
         ++ String.intercalate ", " (missingInputs entry input_data)
         ++ ". Expected inputs: "
         ++ String.intercalate ", " (entry.inputs.map (fun i => i.name)))),
        c')
    else
      match prepareInputs conv entry.inputs input_data with
      | none =>
        (Except.error (OnnxErr.inputError "Failed to prepare inputs"), c')
      | some numpy_inputs =>
        match sessRun entry numpy_inputs with
        | Except.error m =>
          (Except.error (OnnxErr.inferenceError ("Inference failed: " ++ m)),
            c')
        | Except.ok (results, elapsed) =>
          (Except.ok ⟨entry.outputs.zip results, elapsed⟩, c')

/-! ## Redis cache service (`app/services/cache.py`)

The redis client is modelled by an in-memory keyed store plus two flags:
`connected` (the service's `_connected and _client`) and `faulty` (every
client call raises `RedisError`, which the service catches).  Every service
operation returns its value, the state after the call, and the list of
client calls it attempted — the effect trace. -/

/-- A redis client call attempted by the service (after the connection
check), named by the full (prefixed) key. -/
inductive CacheEff
  | clientGet (key : String)
  | clientSet (key : String)
  | clientIncr (key : String)
deriving DecidableEq, Repr

/-- State of the cache service and its backing store. -/
structure CacheState where
  connected : Bool
  faulty : Bool
  store : List (String × JsonVal)
deriving Repr

/-- Cache service configuration: `keyspace` is the namespace string that `make_key` prepends to every key. -/
structure CacheCfg where
  keyspace : String
deriving Repr

/-- `CacheService.get` (the client's JSON round-trip is identity here). -/
def cacheGet (cfg : CacheCfg) (st : CacheState) (key : String) :
    Option JsonVal × List CacheEff :=
  if !st.connected then (none, [])
  else if st.faulty then (none, [CacheEff.clientGet (cfg.keyspace ++ key)])
  else (lookupA st.store (cfg.keyspace ++ key),
        [CacheEff.clientGet (cfg.keyspace ++ key)])

/-- Association-list update-or-insert (redis `SET`). -/
def upsertA (l : List (String × α)) (k : String) (v : α) :
    List (String × α) :=
  if (lookupA l k).isSome then
    l.map (fun p => if p.1 == k then (k, v) else p)
  else l ++ [(k, v)]

/-- `CacheService.set`. -/
def cacheSet (cfg : CacheCfg) (st : CacheState) (key : String)
    (value : JsonVal) : Bool × CacheState × List CacheEff :=
  if !st.connected then (false, st, [])
  else if st.faulty then
    (false, st, [CacheEff.clientSet (cfg.keyspace ++ key)])
  else
    (true, { st with store := upsertA st.store (cfg.keyspace ++ key) value },
      [CacheEff.clientSet (cfg.keyspace ++ key)])

/-- `CacheService.incr` (redis `INCR`: create at 1, fail on non-integer
values; failures are caught and become `none`). -/
def cacheIncr (cfg : CacheCfg) (st : CacheState) (key : String) :
    Option Int × CacheState × List CacheEff :=
  if !st.connected then (none, st, [])
  else if st.faulty then
    (none, st, [CacheEff.clientIncr (cfg.keyspace ++ key)])
  else
    let k := cfg.keyspace ++ key
    match lookupA st.store k with
    | some (JsonVal.num n) =>
      (some (n + 1), { st with store := upsertA st.store k (JsonVal.num (n + 1)) },
        [CacheEff.clientIncr k])
    | none =>
      (some 1, { st with store := upsertA st.store k (JsonVal.num 1) },
        [CacheEff.clientIncr k])
    | some _ => (none, st, [CacheEff.clientIncr k])

/-- `CacheService.get_raw` (no JSON decoding; counters read back). -/
def cacheGetRaw (cfg : CacheCfg) (st : CacheState) (key : String) :
    Option JsonVal × List CacheEff :=
  if !st.connected then (none, [])
  else if st.faulty then (none, [CacheEff.clientGet (cfg.keyspace ++ key)])
  else (lookupA st.store (cfg.keyspace ++ key),
        [CacheEff.clientGet (cfg.keyspace ++ key)])

/-! ## Prediction result cache (`app/services/prediction_cache.py`)

`hash_input` (canonical-JSON + MD5) is external hashing; it enters as the
function parameter `hashInput`. -/

/-- Key pattern `prediction:{model_id}:{input_hash}`. -/
def predictionKeyFmt (model_id input_hash : String) : String :=
  "prediction:" ++ model_id ++ ":" ++ input_hash

/-- `metrics:prediction:hits`. -/
def PREDICTION_METRICS_HITS : String := "metrics:prediction:hits"

/-- `metrics:prediction:misses`. -/
def PREDICTION_METRICS_MISSES : String := "metrics:prediction:misses"

/-- `PredictionCacheResult`. -/
structure PredictionCacheResult where
  hit : Bool
  output_data : Option JsonVal
  inference_time_ms : Option JsonVal
deriving Repr

/-- `PredictionCache` configuration (from settings). -/
structure PredCacheCfg where
  enabled : Bool
  prediction_ttl : Int
deriving Repr

/-- `PredictionCache.get_prediction`. -/
def get_prediction (pc : PredCacheCfg) (cfg : CacheCfg)
    (hashInput : PyDict → String) (model_id : String) (input_data : PyDict)
    (st : CacheState) :
    PredictionCacheResult × CacheState × List CacheEff :=
  if !pc.enabled then (⟨false, none, none⟩, st, [])
  else
    let key := predictionKeyFmt model_id (hashInput input_data)
    let (cached, t1) := cacheGet cfg st key
    match cached with
    | some j =>
      let (_, st2, t2) := cacheIncr cfg st PREDICTION_METRICS_HITS
      (⟨true, j.get "output_data", j.get "inference_time_ms"⟩, st2, t1 ++ t2)
    | none =>
      let (_, st2, t2) := cacheIncr cfg st PREDICTION_METRICS_MISSES
      (⟨false, none, none⟩, st2, t1 ++ t2)

/-- `PredictionCache.set_prediction`. -/
def set_prediction (pc : PredCacheCfg) (cfg : CacheCfg)
    (hashInput : PyDict → String) (model_id : String) (input_data : PyDict)
    (output_data : JsonVal) (inference_time_ms : Int) (st : CacheState) :
    Bool × CacheState × List CacheEff :=
  if !pc.enabled then (false, st, [])
  else
    let key := predictionKeyFmt model_id (hashInput input_data)
    let cache_value := JsonVal.obj
      [("output_data", output_data),
       ("inference_time_ms", JsonVal.num inference_time_ms)]
    cacheSet cfg st key cache_value

/-- `PredictionCache.get_metrics` (hits/misses read back, zero when the
store is unreachable). -/
def pc_get_metrics (pc : PredCacheCfg) (cfg : CacheCfg) (st : CacheState) :
    Int × Int × Bool :=
  if st.connected then
    let hits := match (cacheGetRaw cfg st PREDICTION_METRICS_HITS).1 with
      | some (JsonVal.num n) => n
      | _ => 0
    let misses := match (cacheGetRaw cfg st PREDICTION_METRICS_MISSES).1 with
      | some (JsonVal.num n) => n
      | _ => 0
    (hits, misses, pc.enabled)
  else (0, 0, pc.enabled)

/-! ## Local artifact storage (`app/services/storage.py`)

POSIX paths are modelled two ways at once, exactly as the code mixes them:
as component lists (the pathlib view; the resolved base directory is a
list of components, each a non-empty name without `/`) and as strings (the
`str(...)`/`startswith` view used by the traversal check).  `Path(p).name`
keeps `..` as a possible last component, which is why `resolve()` (the
`..`-normalisation) and the string check both matter. -/

/-- Split a character list on `/`, keeping empty pieces (the semantics of
splitting a POSIX path string on its separator). -/
def splitOnSlash : List Char → List (List Char)
  | [] => [[]]
  | c :: rest =>
    if c = '/' then [] :: splitOnSlash rest
    else
      match splitOnSlash rest with
      | [] => [[c]]
      | h :: t => (c :: h) :: t

/-- `Path(p).name` for a POSIX path string: split on `/`, drop empty and
`.` components (pathlib drops them), take the last component (which can
be `..`), or `""` when nothing is left. -/
def pathlibName (p : String) : String :=
  let parts := ((splitOnSlash p.data).map String.mk).filter
    (fun c => c != "" && c != ".")
  match parts.getLast? with
  | some n => n
  | none => ""

/-- `(base / name).resolve()` on an already-resolved base, for a single
joined component as produced by `Path(p).name`: `""` joins to the base
itself, `..` normalises away the last base component, anything else is
appended. -/
def resolveJoin (base : List String) (nm : String) : List String :=
  if nm = "" then base
  else if nm = ".." then base.dropLast
  else base ++ [nm]

/-- `str(...)` of an absolute path given by components: `/` for the root,
otherwise `/c1/c2/...`. -/
def renderComps (cs : List String) : List Char :=
  if cs = [] then ['/']
  else ((cs.map (fun c => '/' :: c.data))).flatten

/-- Python `str.startswith`: the second string is a prefix of the first. -/
def pyStartswith (s pre : List Char) : Bool := pre.isPrefixOf s

/-- `LocalStorageService._resolve_path`: sanitize to the last path
component, join under the base, resolve, and reject when the resolved
string does not start with the base string.  Errors are `StorageError`s. -/
def resolve_path (base : List String) (p : String) :
    Except String (List String) :=
  let safe_path := pathlibName p
  let resolved := resolveJoin base safe_path
  if pyStartswith (renderComps resolved) (renderComps base) then
    Except.ok resolved
  else Except.error "Invalid path: directory traversal detected"

/-- `LocalStorageService.get_path`: `_resolve_path` plus the existence
check (`fsExists` is the filesystem). -/
def get_path (fsExists : List String → Bool) (base : List String)
    (p : String) : Except String (List String) :=
  match resolve_path base p with
  | Except.error e => Except.error e
  | Except.ok file_path =>
    if fsExists file_path then Except.ok file_path
    else Except.error ("File not found: " ++ p)

/-! ## Synchronous prediction handler (`app/api/predictions.py`) -/

/-- Request body of `POST /models/{id}/predict` (`PredictionCreate`). -/
structure PredictionCreate where
  input_data : PyDict
  skip_cache : Bool
deriving Repr

/-- What leaves `create_prediction`: a 201 row, an `HTTPException`, or the
re-raised `PostCommitmentInvariantViolation`. -/
inductive PredictOutcome
  | created (output_data : JsonVal) (inference_time_ms : JsonVal)
      (cached : Bool) (xcache : String)
  | http (code : Nat) (detail : String)
  | pcivRaised (msg : String)
deriving Repr

/-- Result of the handler plus whether `run_inference` was invoked. -/
structure PredictResult where
  outcome : PredictOutcome
  engineInvoked : Bool
deriving Repr

/-- The 500 detail used when a committed model has no `file_path`. -/
def nullFilePathMsg : String :=
  "POST-COMMITMENT INVARIANT VIOLATED. " ++
  "Invariant: committed model has file_path set. " ++
  "Observed: file_path is None. " ++
  "The pipeline contract is broken. Execution cannot continue."

/-- `create_prediction`.  The result-cache probe (`probe`), the storage
resolution (`getPathO`) and the engine call (`runInf`) are the handler's
collaborators.  `probe` is consulted only when the caller did not pass
`skip_cache`. -/
def create_prediction (model : MLModelRow) (prediction_in : PredictionCreate)
    (probe : PredictionCacheResult) (getPathO : Except String String)
    (runInf : String → PyDict → Except OnnxErr InferenceResult) :
    PredictResult :=
  -- DECISION 1: committed?
  match model.assert_committed with
  | Except.error e => ⟨PredictOutcome.http 400 e, false⟩
  | Except.ok _ =>
    -- DECISION 2: file path present?
    match model.file_path with
    | none => ⟨PredictOutcome.http 500 nullFilePathMsg, false⟩
    | some _ =>
      -- DECISION 3 and 4: cached result / invoke inference
      let use_cached_result := !prediction_in.skip_cache && probe.hit
      if use_cached_result then
        match probe.output_data, probe.inference_time_ms with
        | some out, some t =>
          ⟨PredictOutcome.created out t true "HIT", false⟩
        | _, _ =>
          -- PHASE 3 guard: inference did not produce results
          ⟨PredictOutcome.http 500 "Inference did not produce results.", false⟩
      else
        match getPathO with
        | Except.error e =>
          ⟨PredictOutcome.http 500 ("Failed to access model file: " ++ e),
            false⟩
        | Except.ok file_path =>
          match runInf file_path prediction_in.input_data with
          | Except.error (OnnxErr.pciv m) =>
            ⟨PredictOutcome.pcivRaised m, true⟩
          | Except.error (OnnxErr.inputError m) =>
            ⟨PredictOutcome.http 400 m, true⟩
          | Except.error (OnnxErr.loadError m) =>
            ⟨PredictOutcome.http 500 ("Failed to load model: " ++ m), true⟩
          | Except.error (OnnxErr.inferenceError m) =>
            ⟨PredictOutcome.http 500 ("Inference failed: " ++ m), true⟩
          | Except.ok result =>
            ⟨PredictOutcome.created (JsonVal.obj result.outputs)
              (JsonVal.num result.inference_time_ms) false "MISS", true⟩

/-! ## Async job creation (`app/api/jobs.py`) -/

/-- `JobStatus`. -/
inductive JobStatus
  | pending | queued | running | completed | failed | cancelled
deriving DecidableEq, Repr

/-- The columns of a `jobs` row the handlers and the worker touch.
Timestamps are abstract instants (`Nat` ticks). -/
structure JobRow where
  id : String
  model_id : String
  status : JobStatus
  input_data : PyDict
  output_data : Option JsonVal
  celery_task_id : Option String
  worker_id : Option String
  retries : Nat
  max_retries : Nat
  error_message : Option String
  error_traceback : Option String
  inference_time_ms : Option Int
  queue_time_ms : Option Int
  created_at : Nat
  started_at : Option Nat
  completed_at : Option Nat
deriving Repr

/-- `JobCreate` request body. -/
structure JobCreate where
  model_id : String
  input_data : PyDict
deriving Repr

/-- Outcome of `POST /jobs`. -/
inductive JobApiOutcome
  | created201 (job : JobRow)
  | http (code : Nat) (detail : String)
deriving Repr

/-- A fresh `Job` row as `job_crud.create` inserts it (column defaults
from `app/models/job.py`). -/
def newJobRow (jid : String) (job_in : JobCreate) (now : Nat) : JobRow :=
  { id := jid
    model_id := job_in.model_id
    status := JobStatus.pending
    input_data := job_in.input_data
    output_data := none
    celery_task_id := none
    worker_id := none
    retries := 0
    max_retries := 3
    error_message := none
    error_traceback := none
    inference_time_ms := none
    queue_time_ms := none
    created_at := now
    started_at := none
    completed_at := none }

/-- `create_job`.  `modelOpt` is `model_crud.get`'s answer, `enqueue` the
broker publish (`run_inference_task.delay`), returning a task id or
failing.  The second component is the job row left in the database
(`none` when no row was inserted). -/
def create_job (job_in : JobCreate) (modelOpt : Option MLModelRow)
    (jid : String) (now : Nat) (enqueue : Except String String) :
    JobApiOutcome × Option JobRow :=
  match modelOpt with
  | none =>
    (JobApiOutcome.http 404
      ("Model with ID " ++ job_in.model_id ++ " not found"), none)
  | some model =>
    if model.status ≠ ModelStatus.ready then
      (JobApiOutcome.http 400
        ("Model " ++ job_in.model_id ++ " is not ready for inference " ++
         "(current status: " ++ model.status.value ++ "). " ++
         "Please ensure the model file is uploaded and validated successfully."),
        none)
    else
      let job := newJobRow jid job_in now
      match enqueue with
      | Except.ok task_id =>
        let job' := { job with celery_task_id := some task_id,
                               status := JobStatus.queued }
        (JobApiOutcome.created201 job', some job')
      | Except.error _ =>
        -- queuing failed: leave the job PENDING, do not fail the call
        (JobApiOutcome.created201 job, some job)

/-! ## Validate (commit) endpoint (`app/api/models.py::validate_model`) -/

/-- `ValidationResult` as returned by `ONNXService.validate`. -/
structure ValidationResult where
  valid : Bool
  input_schema : List TensorSchema
  output_schema : List TensorSchema
  metadata : JsonVal
  error_message : Option String
deriving Repr

/-- Response of `POST /models/{id}/validate`: the 200 body, or an
`HTTPException`. -/
inductive ValidateResp
  | ok200 (valid : Bool) (error_message : Option String) (message : String)
  | http (code : Nat) (detail : String)
deriving Repr

/-- `validate_model`.  `getPathO` is `storage.get_path(model.file_path)`;
`validateFn` is `onnx_service.validate` on the resolved path.  Returns the
response, the model row finally in the database, and the trace of row
statuses committed during the call. -/
def validate_model (model : MLModelRow) (getPathO : Except String String)
    (validateFn : String → ValidationResult) :
    ValidateResp × MLModelRow × List ModelStatus :=
  match model.file_path with
  | none =>
    (ValidateResp.http 400
      "Model does not have an uploaded file. Upload a file first.",
      model, [])
  | some _ =>
    if model.status ≠ ModelStatus.uploaded ∧ model.status ≠ ModelStatus.error
    then
      (ValidateResp.http 409
        ("Model cannot be validated in '" ++ model.status.value ++
         "' status. Only models in 'uploaded' or 'error' status can be validated."),
        model, [])
    else
      -- update_status(..., VALIDATING)
      match getPathO with
      | Except.error e =>
        (ValidateResp.http 500 ("Failed to access model file: " ++ e),
          { model with status := ModelStatus.error },
          [ModelStatus.validating, ModelStatus.error])
      | Except.ok file_path =>
        let result := validateFn file_path
        if result.valid then
          let updated := { model with
            status := ModelStatus.ready
            input_schema := some result.input_schema
            output_schema := some result.output_schema
            model_metadata := some result.metadata }
          (ValidateResp.ok200 true none "Model validated successfully",
            updated, [ModelStatus.validating, ModelStatus.ready])
        else
          (ValidateResp.ok200 false result.error_message
            "Model validation failed",
            { model with status := ModelStatus.error },
            [ModelStatus.validating, ModelStatus.error])

/-! ## Worker inference task (`app/tasks/inference.py`) -/

/-- The Celery request context bits the task reads (`self.request`). -/
structure TaskCtx where
  id : String
  hostname : String
  retries : Nat
deriving Repr

/-- The engine call as seen from the worker: success with outputs and
elapsed time, an `ONNXError` (permanent, excluded from autoretry), or any
other exception (transient, autoretried). -/
inductive TaskEngineOutcome
  | success (outputs : JsonVal) (time_ms : Int)
  | onnxError (msg : String)
  | otherExc (msg : String)
deriving Repr

/-- How the task body exits: a return value (summarised by its `status`
field) or a propagating exception. -/
inductive TaskExit
  | returned (status : String)
  | raised (msg : String)
deriving DecidableEq, Repr

/-- `run_inference_task`.  `now` is the current instant, `jobOpt` and
`modelOpt` the database fetches, `engine` the `run_inference` outcome when
it is reached.  Returns the job row as last committed when the task exits
(including the `finally` block) and the exit. -/
def run_inference_task (now : Nat) (ctx : TaskCtx) (jobOpt : Option JobRow)
    (modelOpt : Option MLModelRow) (engine : TaskEngineOutcome) :
    Option JobRow × TaskExit :=
  match jobOpt with
  | none => (none, TaskExit.returned "error")
  | some job0 =>
    let queue_time_ms : Int := (now : Int) - (job0.created_at : Int)
    -- first commit: RUNNING
    let job1 := { job0 with
      status := JobStatus.running
      started_at := some now
      queue_time_ms := some queue_time_ms
      celery_task_id := some ctx.id
      worker_id := some ctx.hostname
      retries := ctx.retries }
    let (job2, exit) :=
      match modelOpt with
      | none =>
        ({ job1 with retries := ctx.retries + 1 },
          TaskExit.raised ("Model " ++ job1.model_id ++ " not found"))
      | some model =>
        if model.status ≠ ModelStatus.ready then
          ({ job1 with retries := ctx.retries + 1 },
            TaskExit.raised ("Model " ++ job1.model_id ++
              " is not ready (status: " ++ model.status.value ++ ")"))
        else if model.file_path = none then
          ({ job1 with retries := ctx.retries + 1 },
            TaskExit.raised ("Model " ++ job1.model_id ++
              " has no file uploaded"))
        else
          match engine with
          | TaskEngineOutcome.success out t =>
            ({ job1 with
                status := JobStatus.completed
                output_data := some out
                inference_time_ms := some t
                completed_at := some now },
              TaskExit.returned "completed")
          | TaskEngineOutcome.onnxError m =>
            ({ job1 with
                status := JobStatus.failed
                error_message := some m
                error_traceback := some "Traceback (most recent call last)"
                completed_at := some now },
              TaskExit.returned "failed")
          | TaskEngineOutcome.otherExc m =>
            ({ job1 with retries := ctx.retries + 1 }, TaskExit.raised m)
    -- finally block: a job still RUNNING at task exit is marked FAILED
    let job3 :=
      if job2.status = JobStatus.running then
        { job2 with
            status := JobStatus.failed
            error_message := some "Task exited unexpectedly while job was running"
            completed_at := some now }
      else job2
    (some job3, exit)

/-- Whether Celery re-executes the task after this exit, per the task
decorator: `autoretry_for=(Exception,)`, `dont_autoretry_for=(ONNXError,)`
(an `ONNXError` never propagates out of the body) and
`max_retries=settings.job_max_retries`. -/
def celeryAutoretries (exit : TaskExit) (ctxRetries max_retries : Nat) :
    Bool :=
  match exit with
  | TaskExit.raised _ => ctxRetries < max_retries
  | TaskExit.returned _ => false

/-! ## Fixtures for concrete evaluations -/

/-- A committed (READY) model row with an uploaded artifact. -/
def modelReadyFix : MLModelRow :=
  { id := "11111111-1111-1111-1111-111111111111"
    name := "m"
    version := "1.0.0"
    status := ModelStatus.ready
    file_path := some "11111111-1111-1111-1111-111111111111.onnx"
    file_hash := some "abc123"
    input_schema := some [⟨"input", "float32", [none, some 10]⟩]
    output_schema := some [⟨"output", "float32", [none, some 10]⟩]
    model_metadata := some (JsonVal.obj []) }

/-- An uploaded-but-never-validated model row (pre-boundary). -/
def modelUploadedFix : MLModelRow :=
  { modelReadyFix with
    status := ModelStatus.uploaded
    input_schema := none
    output_schema := none
    model_metadata := none }

/-- A queued job for `modelReadyFix` with the default `max_retries = 3`. -/
def jobQueuedFix : JobRow :=
  { newJobRow "jjjjjjjj-1111-1111-1111-111111111111"
      ⟨modelReadyFix.id, [("input", JsonVal.arr [JsonVal.num 1])]⟩ 0
    with
    status := JobStatus.queued
    celery_task_id := some "task-0" }

/-! ## Claim theorems -/

/-- **C3** (code bug).  On the spec's literal inputs
`1.0.0, 1.10.0, 1.9.0, 2.0.0, 1.0.0-beta`, `get_versions_by_name` sorts by
the raw `parse_semver` tuple, under which the empty (stable) pre-release
orders *below* `"beta"`; the returned order is
`2.0.0, 1.10.0, 1.9.0, 1.0.0-beta, 1.0.0`, not the claimed
`2.0.0, 1.10.0, 1.9.0, 1.0.0, 1.0.0-beta`.  The repository's own
`compare_versions` (last conjunct) ranks `1.0.0` above `1.0.0-beta`, so
the sort contradicts the comparator it claims to use.  `get_latest_by_name`
does return `2.0.0`. -/
theorem C3_versions_order_eval :
    get_versions_by_name ["1.0.0", "1.10.0", "1.9.0", "2.0.0", "1.0.0-beta"]
      = ["2.0.0", "1.10.0", "1.9.0", "1.0.0-beta", "1.0.0"]
    ∧ get_versions_by_name ["1.0.0", "1.10.0", "1.9.0", "2.0.0", "1.0.0-beta"]
      ≠ ["2.0.0", "1.10.0", "1.9.0", "1.0.0", "1.0.0-beta"]
    ∧ get_latest_by_name ["1.0.0", "1.10.0", "1.9.0", "2.0.0", "1.0.0-beta"]
      = some "2.0.0"
    ∧ compare_versions "1.0.0" "1.0.0-beta" = 1 := by
  refine ⟨by decide, by decide, by decide, by decide⟩

/-- **C4** (code bug).  `"zzz"` does not parse and `"0.0.0-aaa"` does, yet
`compare_versions "zzz" "0.0.0-aaa" = 1`, not `-1`: a non-parsing string is
encoded as `(0,0,0,original)` and therefore beats valid `0.0.0`
pre-releases alphabetically.  Likewise the non-parsing pair
`"" < "abc"` alphabetically, but `compare_versions "" "abc" = 1` because
the empty encoded pre-release is treated as a stable version. -/
theorem C4_compare_nonparsing_eval :
    (semverMatch "zzz").isNone = true
    ∧ (semverMatch "0.0.0-aaa").isSome = true
    ∧ compare_versions "zzz" "0.0.0-aaa" = 1
    ∧ (semverMatch "").isNone = true
    ∧ (semverMatch "abc").isNone = true
    ∧ pyStrLt "" "abc" = true
    ∧ compare_versions "" "abc" = 1 := by
  refine ⟨by decide, by decide, by decide, by decide, by decide, by decide,
    by decide⟩

/-- **C6** (code bug).  A first execution of `run_inference_task` that hits
a non-engine exception commits the job as `FAILED` (the `finally` block
fires because the row is still `RUNNING` when the exception propagates)
with `retries = 1` of `max_retries = 3` — settled before retries are
exhausted — while Celery's autoretry still re-executes the task; the retry
execution then moves the terminal `FAILED` row back through `RUNNING` to
`COMPLETED`.  Both halves of the claim fail on this trace. -/
theorem C6_terminal_revisited_eval :
    ((run_inference_task 10 ⟨"task-1", "worker-1", 0⟩ (some jobQueuedFix)
        (some modelReadyFix)
        (TaskEngineOutcome.otherExc "database connection lost")).1.map
      (fun j => (j.status, j.retries, j.max_retries)))
      = some (JobStatus.failed, 1, 3)
    ∧ (run_inference_task 10 ⟨"task-1", "worker-1", 0⟩ (some jobQueuedFix)
        (some modelReadyFix)
        (TaskEngineOutcome.otherExc "database connection lost")).2
      = TaskExit.raised "database connection lost"
    ∧ celeryAutoretries (TaskExit.raised "database connection lost") 0 3
      = true
    ∧ ((run_inference_task 20 ⟨"task-2", "worker-1", 1⟩
        ((run_inference_task 10 ⟨"task-1", "worker-1", 0⟩ (some jobQueuedFix)
          (some modelReadyFix)
          (TaskEngineOutcome.otherExc "database connection lost")).1)
        (some modelReadyFix)
        (TaskEngineOutcome.success (JsonVal.obj []) 5)).1.map
      (fun j => j.status))
      = some JobStatus.completed := by
  refine ⟨by decide, by decide, by decide, by decide⟩

/-- On an uncommitted model, `assert_committed` raises with the boundary
message. -/
theorem assert_committed_not_ready (m : MLModelRow)
    (h : m.status ≠ ModelStatus.ready) :
    m.assert_committed = Except.error (boundaryMsg m) := by
  simp [MLModelRow.assert_committed, MLModelRow.is_committed, h]

/-- **C1** (confirmed).  If the referenced model's status is not `READY`,
the sync predict handler answers 400 with the boundary message and never
calls `run_inference`, and the async job-creation handler answers 400 and
inserts no job row; conversely a 201 on either path implies the model's
status was `READY` at the moment of acceptance. -/
theorem C1_ready_gate (model : MLModelRow) (pin : PredictionCreate)
    (probe : PredictionCacheResult) (gp : Except String String)
    (runInf : String → PyDict → Except OnnxErr InferenceResult)
    (job_in : JobCreate) (jid : String) (now : Nat)
    (enq : Except String String) :
    (model.status ≠ ModelStatus.ready →
      create_prediction model pin probe gp runInf
        = ⟨PredictOutcome.http 400 (boundaryMsg model), false⟩
      ∧ create_job job_in (some model) jid now enq
        = (JobApiOutcome.http 400
            ("Model " ++ job_in.model_id ++ " is not ready for inference " ++
             "(current status: " ++ model.status.value ++ "). " ++
             "Please ensure the model file is uploaded and validated successfully."),
           none))
    ∧ (∀ out t c x, (create_prediction model pin probe gp runInf).outcome
        = PredictOutcome.created out t c x → model.status = ModelStatus.ready)
    ∧ (∀ j, (create_job job_in (some model) jid now enq).1
        = JobApiOutcome.created201 j → model.status = ModelStatus.ready) := by
  by_cases h : model.status = ModelStatus.ready
  · exact ⟨fun hne => absurd h hne, fun _ _ _ _ _ => h, fun _ _ => h⟩
  · refine ⟨fun _ => ?_, ?_, ?_⟩
    · constructor
      · simp [create_prediction, assert_committed_not_ready model h]
      · simp [create_job, h]
    · intro out t c x hc
      simp [create_prediction, assert_committed_not_ready model h] at hc
    · intro j hj
      rw [create_job] at hj
      simp [h] at hj

/-- Witness for C1 at the uploaded-but-unvalidated fixture. -/
theorem C1_ready_gate_witness :
    create_prediction modelUploadedFix ⟨[], false⟩
        ⟨false, none, none⟩ (Except.ok "p.onnx")
        (fun _ _ => Except.error (OnnxErr.loadError "unused"))
      = ⟨PredictOutcome.http 400 (boundaryMsg modelUploadedFix), false⟩
    ∧ create_job ⟨modelUploadedFix.id, []⟩ (some modelUploadedFix)
        "job-1" 0 (Except.ok "task-1")
      = (JobApiOutcome.http 400
          ("Model " ++ modelUploadedFix.id ++ " is not ready for inference " ++
           "(current status: " ++ modelUploadedFix.status.value ++ "). " ++
           "Please ensure the model file is uploaded and validated successfully."),
         none) :=
  C1_ready_gate modelUploadedFix ⟨[], false⟩ ⟨false, none, none⟩
    (Except.ok "p.onnx") (fun _ _ => Except.error (OnnxErr.loadError "unused"))
    ⟨modelUploadedFix.id, []⟩ "job-1" 0 (Except.ok "task-1")
    |>.1 (by decide)

/-- **C2** (confirmed).  When the resolved-path key is cached but the file
no longer exists, `get_cached_session` evicts the entry and raises
`PostCommitmentInvariantViolation`; `run_inference` propagates it; and the
sync predict handler re-raises it unchanged instead of mapping it to a
400/500 input or load error. -/
theorem C2_pciv_eviction (resolve : String → String) (fs : String → Bool)
    (loadSess : String → Except String SessionEntry)
    (cache : List (String × SessionEntry)) (mp : String)
    (entry : SessionEntry)
    (hmem : lookupA cache (resolve mp) = some entry)
    (hfs : fs (resolve mp) = false) :
    getCachedSession resolve fs loadSess cache mp
      = (Except.error (OnnxErr.pciv (pcivMsg (resolve mp))),
         eraseA cache (resolve mp))
    ∧ (∀ (conv : String → JsonVal → Option JsonVal)
        (sessRun : SessionEntry → List (String × JsonVal) →
          Except String (List JsonVal × Int))
        (input_data : List (String × JsonVal)),
        run_inference resolve fs loadSess conv sessRun cache mp input_data
          = (Except.error (OnnxErr.pciv (pcivMsg (resolve mp))),
             eraseA cache (resolve mp)))
    ∧ (∀ (model : MLModelRow) (pin : PredictionCreate)
        (probe : PredictionCacheResult) (fp rp msg : String)
        (runInf : String → PyDict → Except OnnxErr InferenceResult),
        model.status = ModelStatus.ready →
        model.file_path = some fp →
        (!pin.skip_cache && probe.hit) = false →
        runInf rp pin.input_data = Except.error (OnnxErr.pciv msg) →
        create_prediction model pin probe (Except.ok rp) runInf
          = ⟨PredictOutcome.pcivRaised msg, true⟩) := by
  have hgcs : getCachedSession resolve fs loadSess cache mp
      = (Except.error (OnnxErr.pciv (pcivMsg (resolve mp))),
         eraseA cache (resolve mp)) := by
    simp [getCachedSession, hmem, hfs]
  refine ⟨hgcs, ?_, ?_⟩
  · intro conv sessRun input_data
    rw [run_inference, hgcs]
  · intro model pin probe fp rp msg runInf hready hfp hnc hrun
    simp [create_prediction, MLModelRow.assert_committed,
      MLModelRow.is_committed, hready, hfp, hnc, hrun]

/-- Witness for C2: a one-entry session cache whose file has vanished. -/
theorem C2_pciv_eviction_witness :
    getCachedSession id (fun _ => false)
        (fun _ => Except.error "unused")
        [("p.onnx", ⟨[⟨"input", "tensor(float)"⟩], ["output"]⟩)] "p.onnx"
      = (Except.error (OnnxErr.pciv (pcivMsg "p.onnx")), [])
    ∧ create_prediction modelReadyFix ⟨[], true⟩
        ⟨false, none, none⟩ (Except.ok "p.onnx")
        (fun p d =>
          (run_inference id (fun _ => false) (fun _ => Except.error "unused")
            (fun _ v => some v) (fun _ _ => Except.ok ([], 0))
            [("p.onnx", ⟨[⟨"input", "tensor(float)"⟩], ["output"]⟩)] p d).1)
      = ⟨PredictOutcome.pcivRaised (pcivMsg "p.onnx"), true⟩ := by
  have h := C2_pciv_eviction id (fun _ => false)
    (fun _ => Except.error "unused")
    [("p.onnx", ⟨[⟨"input", "tensor(float)"⟩], ["output"]⟩)] "p.onnx"
    ⟨[⟨"input", "tensor(float)"⟩], ["output"]⟩ rfl rfl
  refine ⟨h.1, ?_⟩
  exact h.2.2 modelReadyFix ⟨[], true⟩ ⟨false, none, none⟩
    "11111111-1111-1111-1111-111111111111.onnx" "p.onnx" (pcivMsg "p.onnx")
    _ rfl rfl rfl rfl

/-- An invalid `ValidationResult` carrying an error message. -/
def invalidRes (msg : String) : ValidationResult :=
  ⟨false, [], [], JsonVal.obj [], some msg⟩

/-- **C5 counterexample.**  The model row left behind by a failed
validation does not depend on the engine's error message: two runs whose
only difference is the error message (`"E1"` vs `"E2"`) commit identical
rows, both merely `status := ERROR`.  Hence the error message is *not*
recorded on the model row (the `ml_models` table has no column for it);
it is only returned in the response body. -/
theorem C5_error_not_recorded_counterexample :
    (validate_model modelUploadedFix (Except.ok "/models/m.onnx")
        (fun _ => invalidRes "E1")).2.1
      = (validate_model modelUploadedFix (Except.ok "/models/m.onnx")
        (fun _ => invalidRes "E2")).2.1
    ∧ (validate_model modelUploadedFix (Except.ok "/models/m.onnx")
        (fun _ => invalidRes "E1")).2.1
      = { modelUploadedFix with status := ModelStatus.error }
    ∧ (validate_model modelUploadedFix (Except.ok "/models/m.onnx")
        (fun _ => invalidRes "E1")).1
      = ValidateResp.ok200 false (some "E1") "Model validation failed"
    ∧ ("E1" : String) ≠ "E2" := by
  exact ⟨rfl, rfl, rfl, by decide⟩

/-- **C5** (corrected).  The validate endpoint responds 400 when
`file_path` is null (checked first), 409 when the status is not in
`{UPLOADED, ERROR}`; otherwise it transitions the row to `VALIDATING`,
runs engine validation and either records `input_schema`, `output_schema`
and `model_metadata` with status `READY` (valid result), or — amendment —
records *only* status `ERROR` on the row for an invalid result, returning
the error message in the response without persisting it. -/
theorem C5_validate_behavior (model : MLModelRow)
    (gp : Except String String) (vf : String → ValidationResult) :
    (model.file_path = none →
      validate_model model gp vf
        = (ValidateResp.http 400
            "Model does not have an uploaded file. Upload a file first.",
           model, []))
    ∧ (∀ fp, model.file_path = some fp →
        model.status ≠ ModelStatus.uploaded →
        model.status ≠ ModelStatus.error →
        validate_model model gp vf
          = (ValidateResp.http 409
              ("Model cannot be validated in '" ++ model.status.value ++
               "' status. Only models in 'uploaded' or 'error' status can be validated."),
             model, []))
    ∧ (∀ fp p, model.file_path = some fp →
        (model.status = ModelStatus.uploaded ∨
          model.status = ModelStatus.error) →
        gp = Except.ok p →
        (vf p).valid = true →
        validate_model model gp vf
          = (ValidateResp.ok200 true none "Model validated successfully",
             { model with
                status := ModelStatus.ready
                input_schema := some (vf p).input_schema
                output_schema := some (vf p).output_schema
                model_metadata := some (vf p).metadata },
             [ModelStatus.validating, ModelStatus.ready]))
    ∧ (∀ fp p, model.file_path = some fp →
        (model.status = ModelStatus.uploaded ∨
          model.status = ModelStatus.error) →
        gp = Except.ok p →
        (vf p).valid = false →
        validate_model model gp vf
          = (ValidateResp.ok200 false (vf p).error_message
              "Model validation failed",
             { model with status := ModelStatus.error },
             [ModelStatus.validating, ModelStatus.error])) := by
  refine ⟨?_, ?_, ?_, ?_⟩
  · intro hfp
    simp [validate_model, hfp]
  · intro fp hfp hnu hne
    simp [validate_model, hfp, hnu, hne]
  · intro fp p hfp hst hgp hvalid
    rcases hst with h | h <;>
      simp [validate_model, hfp, hgp, hvalid, h]
  · intro fp p hfp hst hgp hvalid
    rcases hst with h | h <;>
      simp [validate_model, hfp, hgp, hvalid, h]

/-- Witness for C5: validating the uploaded fixture with a valid engine
result commits `READY` with the extracted schemas and metadata. -/
theorem C5_validate_behavior_witness :
    validate_model modelUploadedFix (Except.ok "/models/m.onnx")
        (fun _ => ⟨true, [⟨"input", "float32", [none, some 10]⟩],
          [⟨"output", "float32", [none, some 10]⟩], JsonVal.obj [], none⟩)
      = (ValidateResp.ok200 true none "Model validated successfully",
         { modelUploadedFix with
            status := ModelStatus.ready
            input_schema := some [⟨"input", "float32", [none, some 10]⟩]
            output_schema := some [⟨"output", "float32", [none, some 10]⟩]
            model_metadata := some (JsonVal.obj []) },
         [ModelStatus.validating, ModelStatus.ready]) :=
  (C5_validate_behavior modelUploadedFix (Except.ok "/models/m.onnx")
      (fun _ => ⟨true, [⟨"input", "float32", [none, some 10]⟩],
        [⟨"output", "float32", [none, some 10]⟩], JsonVal.obj [], none⟩)).2.2.1
    "11111111-1111-1111-1111-111111111111.onnx" "/models/m.onnx"
    rfl (Or.inl rfl) rfl rfl

/-! ### Input preparation lemmas (for C7) -/

/-- A provided entry whose name the session declares but whose value the
numpy coercion rejects. -/
def badEntry (conv : String → JsonVal → Option JsonVal)
    (metas : List TensorMetaI) (p : String × JsonVal) : Bool :=
  match metas.find? (fun m => m.name == p.1) with
  | some meta => (conv meta.type p.2).isNone
  | none => false

/-- Some provided, declared input fails coercion. -/
def anyBadInput (conv : String → JsonVal → Option JsonVal)
    (metas : List TensorMetaI) (l : PyDict) : Bool :=
  l.any (badEntry conv metas)

/-- `_prepare_inputs` fails exactly when some provided, declared input
fails coercion. -/
theorem prepareInputs_isNone (conv : String → JsonVal → Option JsonVal)
    (metas : List TensorMetaI) (l : PyDict) :
    (prepareInputs conv metas l).isNone = anyBadInput conv metas l := by
  induction l with
  | nil => rfl
  | cons hd tl ih =>
    obtain ⟨n, d⟩ := hd
    simp only [prepareInputs, anyBadInput, List.any_cons, badEntry]
    cases hfind : metas.find? (fun m => m.name == n) with
    | none =>
      simpa [anyBadInput] using ih
    | some meta =>
      have ihb : (prepareInputs conv metas tl).isNone
          = tl.any (badEntry conv metas) := ih
      cases hconv : conv meta.type d with
      | none => simp [hconv]
      | some arr =>
        cases hrest : prepareInputs conv metas tl with
        | none => simp [hconv, hrest, ← ihb]
        | some acc => simp [hconv, hrest, ← ihb]

/-- Every key of a successfully prepared input dict is declared by the
session: extra inputs are dropped. -/
theorem prepareInputs_keys (conv : String → JsonVal → Option JsonVal)
    (metas : List TensorMetaI) (l : PyDict) (res : PyDict)
    (h : prepareInputs conv metas l = some res) :
    ∀ q ∈ res, (metas.find? (fun m => m.name == q.1)).isSome = true := by
  induction l generalizing res with
  | nil =>
    simp only [prepareInputs, Option.some_inj] at h
    subst h
    intro q hq
    exact absurd hq (List.not_mem_nil q)
  | cons hd tl ih =>
    obtain ⟨n, d⟩ := hd
    simp only [prepareInputs] at h
    cases hfind : metas.find? (fun m => m.name == n) with
    | none =>
      simp only [hfind] at h
      exact ih res h
    | some meta =>
      simp only [hfind] at h
      cases hconv : conv meta.type d with
      | none =>
        simp only [hconv] at h
        exact Option.noConfusion h
      | some arr =>
        simp only [hconv] at h
        cases hrest : prepareInputs conv metas tl with
        | none =>
          simp only [hrest] at h
          exact Option.noConfusion h
        | some acc =>
          simp only [hrest] at h
          simp only [Option.some_inj] at h
          subst h
          intro q hq
          rcases List.mem_cons.mp hq with hq | hq
          · subst hq; simp [hfind]
          · exact ih acc hrest q hq

/-- Prepending an undeclared input leaves `_prepare_inputs` unchanged. -/
theorem prepareInputs_cons_undeclared (conv : String → JsonVal → Option JsonVal)
    (metas : List TensorMetaI) (n : String) (v : JsonVal) (l : PyDict)
    (h : metas.find? (fun m => m.name == n) = none) :
    prepareInputs conv metas ((n, v) :: l) = prepareInputs conv metas l := by
  simp [prepareInputs, h]

/-- Prepending an undeclared key leaves the missing-inputs computation
unchanged. -/
theorem missing_cons_undeclared (metas : List TensorMetaI) (n : String)
    (keys : List String)
    (h : metas.find? (fun m => m.name == n) = none) :
    (metas.map (fun i => i.name)).filter (fun nm => !(n :: keys).contains nm)
      = (metas.map (fun i => i.name)).filter (fun nm => !keys.contains nm) := by
  apply List.filter_congr
  intro nm hnm
  obtain ⟨m, hm, rfl⟩ := List.mem_map.mp hnm
  have hne : (m.name == n) = false := by
    have := List.find?_eq_none.mp h m hm
    simpa using this
  simp [List.contains_cons, hne]
  intro _ heq
  rw [heq] at hne
  simp at hne

/-- Is this engine result an `ONNXInputError`? -/
def isInputErr : Except OnnxErr InferenceResult → Bool
  | Except.error (OnnxErr.inputError _) => true
  | _ => false

/-- The session of the identity-plus-one example model: one declared input
`input`, one output `output`. -/
def sessionFix : SessionEntry := ⟨[⟨"input", "tensor(float)"⟩], ["output"]⟩

/-- A ragged nested list — a value `np.array(..., dtype=...)` rejects. -/
def raggedArr : JsonVal :=
  JsonVal.arr [JsonVal.arr [JsonVal.num 1],
               JsonVal.arr [JsonVal.num 2, JsonVal.num 3]]

/-- The numpy coercion of `_prepare_inputs`: it accepts everything except
the ragged nested list, on which `np.array` raises. -/
def convNp : String → JsonVal → Option JsonVal := fun _ v =>
  match v with
  | JsonVal.arr [JsonVal.arr [JsonVal.num 1],
      JsonVal.arr [JsonVal.num 2, JsonVal.num 3]] => none
  | v => some v

/-- **C7 counterexample.**  `run_inference` raises `ONNXInputError` even
though no declared input name is absent: the single declared input
`input` *is* provided, but its value is a ragged array that the numpy
coercion in `_prepare_inputs` rejects, and `run_inference` maps that
failure to an input error.  So "raises an input error only if a declared
input name is absent" is false. -/
theorem C7_input_error_counterexample :
    (run_inference id (fun _ => true) (fun _ => Except.ok sessionFix) convNp
        (fun _ _ => Except.ok ([JsonVal.arr []], 1)) [] "m.onnx"
        [("input", raggedArr)]).1
      = Except.error (OnnxErr.inputError "Failed to prepare inputs")
    ∧ missingInputs sessionFix [("input", raggedArr)] = [] := by
  exact ⟨rfl, rfl⟩

/-- **C7** (corrected).  Given a session for the model path,
`run_inference` raises an input error iff a declared input name is absent
from the provided inputs *or* the numpy coercion of some provided,
declared input fails during preparation; keys the session does not
declare are dropped from the prepared inputs and never cause an error
(prepending an undeclared key leaves the whole call unchanged). -/
theorem C7_input_error_characterization
    (resolve : String → String) (fs : String → Bool)
    (loadSess : String → Except String SessionEntry)
    (conv : String → JsonVal → Option JsonVal)
    (sessRun : SessionEntry → List (String × JsonVal) →
      Except String (List JsonVal × Int))
    (cache : List (String × SessionEntry)) (mp : String)
    (input_data : PyDict) (entry : SessionEntry)
    (c' : List (String × SessionEntry))
    (hok : getCachedSession resolve fs loadSess cache mp
      = (Except.ok entry, c')) :
    (isInputErr
        (run_inference resolve fs loadSess conv sessRun cache mp
          input_data).1 = true
      ↔ (missingInputs entry input_data ≠ []
          ∨ anyBadInput conv entry.inputs input_data = true))
    ∧ (∀ res, prepareInputs conv entry.inputs input_data = some res →
        ∀ q ∈ res,
          (entry.inputs.find? (fun m => m.name == q.1)).isSome = true)
    ∧ (∀ n v, entry.inputs.find? (fun m => m.name == n) = none →
        run_inference resolve fs loadSess conv sessRun cache mp
            ((n, v) :: input_data)
          = run_inference resolve fs loadSess conv sessRun cache mp
              input_data) := by
  refine ⟨?_, fun res h => prepareInputs_keys conv entry.inputs input_data res h,
    ?_⟩
  · simp only [run_inference, hok]
    by_cases hm : missingInputs entry input_data = []
    · simp only [hm, ne_eq, not_true_eq_false, if_false]
      cases hp : prepareInputs conv entry.inputs input_data with
      | none =>
        have hbad : anyBadInput conv entry.inputs input_data = true := by
          rw [← prepareInputs_isNone, hp]; rfl
        simp [isInputErr, hbad]
      | some acc =>
        have hbad : anyBadInput conv entry.inputs input_data = false := by
          rw [← prepareInputs_isNone, hp]; rfl
        cases hr : sessRun entry acc with
        | error m => simp [isInputErr, hbad, hm, hr]
        | ok r => simp [isInputErr, hbad, hm, hr]
    · simp [hm, isInputErr]
  · intro n v hund
    have hmiss : missingInputs entry ((n, v) :: input_data)
        = missingInputs entry input_data := by
      simpa [missingInputs] using
        missing_cons_undeclared entry.inputs n (input_data.map Prod.fst) hund
    simp only [run_inference, hok, hmiss,
      prepareInputs_cons_undeclared conv entry.inputs n v input_data hund]

/-- Witness for C7: the counterexample setup seen through the amended
characterization — the failed coercion makes the call an input error, and
prepending an undeclared extra key changes nothing. -/
theorem C7_input_error_characterization_witness :
    isInputErr
        (run_inference id (fun _ => true) (fun _ => Except.ok sessionFix)
          convNp (fun _ _ => Except.ok ([JsonVal.arr []], 1)) [] "m.onnx"
          [("input", raggedArr)]).1 = true
    ∧ run_inference id (fun _ => true) (fun _ => Except.ok sessionFix)
          convNp (fun _ _ => Except.ok ([JsonVal.arr []], 1)) [] "m.onnx"
          (("extra", JsonVal.num 7) :: [("input", raggedArr)])
      = run_inference id (fun _ => true) (fun _ => Except.ok sessionFix)
          convNp (fun _ _ => Except.ok ([JsonVal.arr []], 1)) [] "m.onnx"
          [("input", raggedArr)] := by
  have h := C7_input_error_characterization id (fun _ => true)
    (fun _ => Except.ok sessionFix) convNp
    (fun _ _ => Except.ok ([JsonVal.arr []], 1)) [] "m.onnx"
    [("input", raggedArr)] sessionFix [("m.onnx", sessionFix)] rfl
  exact ⟨h.1.mpr (Or.inr rfl), h.2.2 "extra" (JsonVal.num 7) rfl⟩

/-- **C8** (confirmed).  When prediction caching is disabled or the
key-value store is disconnected, `get_prediction` returns a miss and
`set_prediction` returns `false`; both are total functions here because
every redis failure in the code is caught, so no exception propagates. -/
theorem C8_graceful_degradation (pc : PredCacheCfg) (cfg : CacheCfg)
    (hashInput : PyDict → String) (model_id : String) (input_data : PyDict)
    (output_data : JsonVal) (t : Int) (st : CacheState)
    (h : pc.enabled = false ∨ st.connected = false) :
    (get_prediction pc cfg hashInput model_id input_data st).1.hit = false
    ∧ (set_prediction pc cfg hashInput model_id input_data output_data t
        st).1 = false := by
  by_cases he : pc.enabled = true
  · have hc : st.connected = false := by
      rcases h with h | h
      · rw [he] at h; exact absurd h (by simp)
      · exact h
    constructor
    · simp [get_prediction, he, cacheGet, hc, cacheIncr]
    · simp [set_prediction, he, cacheSet, hc]
  · have he' : pc.enabled = false := by simpa using he
    constructor
    · simp [get_prediction, he']
    · simp [set_prediction, he']

/-- Witness for C8 at a disabled configuration over a connected store. -/
theorem C8_graceful_degradation_witness :
    (get_prediction ⟨false, 60⟩ ⟨"mlforge:"⟩ (fun _ => "a1b2") "m-1" []
        ⟨true, false, []⟩).1.hit = false
    ∧ (set_prediction ⟨false, 60⟩ ⟨"mlforge:"⟩ (fun _ => "a1b2") "m-1" []
        (JsonVal.obj []) 3 ⟨true, false, []⟩).1 = false :=
  C8_graceful_degradation ⟨false, 60⟩ ⟨"mlforge:"⟩ (fun _ => "a1b2") "m-1"
    [] (JsonVal.obj []) 3 ⟨true, false, []⟩ (Or.inl rfl)

/-- **C10** (confirmed).  With prediction caching disabled,
`get_prediction` returns a miss having attempted no client call (empty
effect trace) and leaving the store state — in particular the hit/miss
counters — untouched, so the metrics count only probes made while caching
was enabled. -/
theorem C10_disabled_no_effects (cfg : CacheCfg) (hashInput : PyDict → String)
    (model_id : String) (input_data : PyDict) (st : CacheState)
    (pc : PredCacheCfg) (h : pc.enabled = false) :
    get_prediction pc cfg hashInput model_id input_data st
      = (⟨false, none, none⟩, st, [])
    ∧ pc_get_metrics pc cfg
        (get_prediction pc cfg hashInput model_id input_data st).2.1
      = pc_get_metrics pc cfg st := by
  have h1 : get_prediction pc cfg hashInput model_id input_data st
      = (⟨false, none, none⟩, st, []) := by
    simp [get_prediction, h]
  exact ⟨h1, by rw [h1]⟩

/-- Witness for C10 on a connected store holding nonzero counters. -/
theorem C10_disabled_no_effects_witness :
    get_prediction ⟨false, 60⟩ ⟨"mlforge:"⟩ (fun _ => "a1b2") "m-1" []
        ⟨true, false, [("mlforge:metrics:prediction:hits", JsonVal.num 4)]⟩
      = (⟨false, none, none⟩,
         ⟨true, false, [("mlforge:metrics:prediction:hits", JsonVal.num 4)]⟩,
         []) :=
  (C10_disabled_no_effects ⟨"mlforge:"⟩ (fun _ => "a1b2") "m-1" []
    ⟨true, false, [("mlforge:metrics:prediction:hits", JsonVal.num 4)]⟩
    ⟨false, 60⟩ rfl).1

/-- Rendering strictly shrinks when the last component is dropped:
each non-empty component contributes at least two characters. -/
theorem renderComps_dropLast_length_lt (cs : List String) (hne : cs ≠ [])
    (hwf : ∀ c ∈ cs, c ≠ "") :
    (renderComps cs.dropLast).length < (renderComps cs).length := by
  obtain ⟨init, last, rfl⟩ : ∃ init last, cs = init ++ [last] := by
    refine ⟨cs.dropLast, cs.getLast hne, ?_⟩
    exact (List.dropLast_append_getLast hne).symm
  have hlast : last ≠ "" := hwf last (by simp)
  have hlastlen : 1 ≤ last.data.length := by
    rcases last with ⟨cs'⟩
    cases cs' with
    | nil => exact absurd rfl hlast
    | cons a as => simp
  rw [List.dropLast_concat]
  by_cases hinit : init = []
  · subst hinit
    have h1 : renderComps ([] : List String) = ['/'] := by simp [renderComps]
    have h2 : renderComps ([] ++ [last]) = '/' :: last.data := by
      simp [renderComps]
    rw [h1, h2]
    simp only [List.length_cons, List.length_nil]
    omega
  · have h1 : renderComps init = (init.map (fun c => '/' :: c.data)).flatten := by
      simp [renderComps, hinit]
    have h2 : renderComps (init ++ [last])
        = (init.map (fun c => '/' :: c.data)).flatten ++ ('/' :: last.data) := by
      simp [renderComps]
    rw [h1, h2]
    simp

/-- **C9** (confirmed).  `_resolve_path` either raises `StorageError` or
returns a path inside the configured base directory (the base's component
list is a prefix of the result's), and `get_path` inherits the same
guarantee; this holds for every input string, including ones with
directory components or `..` segments. -/
theorem C9_resolve_within_base (fsExists : List String → Bool)
    (base : List String) (hwf : ∀ c ∈ base, c ≠ "") (p : String)
    (r : List String) :
    (resolve_path base p = Except.ok r → base <+: r)
    ∧ (get_path fsExists base p = Except.ok r → base <+: r) := by
  have hres : ∀ r', resolve_path base p = Except.ok r' → base <+: r' := by
    intro r' h
    unfold resolve_path at h
    by_cases hc : pyStartswith (renderComps (resolveJoin base (pathlibName p)))
        (renderComps base) = true
    · rw [if_pos hc] at h
      have hr' : r' = resolveJoin base (pathlibName p) := by
        cases h; rfl
      subst hr'
      unfold resolveJoin
      by_cases h0 : pathlibName p = ""
      · simp [h0]
      · by_cases h1 : pathlibName p = ".."
        · simp only [h0, h1, if_false, if_true]
          by_cases hb : base = []
          · subst hb; simp
          · exfalso
            rw [h1] at hc
            rw [show resolveJoin base ".." = base.dropLast from by
              simp [resolveJoin]] at hc
            rw [pyStartswith] at hc
            have hpre : renderComps base <+: renderComps base.dropLast :=
              List.isPrefixOf_iff_prefix.mp hc
            have hlen := hpre.length_le
            have hlt := renderComps_dropLast_length_lt base hb hwf
            omega
        · simp only [h0, h1, if_false]
          exact List.prefix_append base [pathlibName p]
    · rw [if_neg (by simpa using hc)] at h
      cases h
  refine ⟨hres r, ?_⟩
  intro h
  unfold get_path at h
  cases hrp : resolve_path base p with
  | error e =>
    simp only [hrp] at h
    exact Except.noConfusion h
  | ok fp =>
    simp only [hrp] at h
    by_cases hex : fsExists fp = true
    · rw [if_pos hex] at h
      have : r = fp := by cases h; rfl
      subst this
      exact hres r hrp
    · rw [if_neg hex] at h
      exact Except.noConfusion h

/-- Witness for C9: a `..`-laden traversal attempt resolves to a path
inside the base. -/
theorem C9_resolve_within_base_witness :
    resolve_path ["data", "models"] "../../etc/passwd"
      = Except.ok ["data", "models", "passwd"]
    ∧ ["data", "models"] <+: ["data", "models", "passwd"] :=
  ⟨rfl,
    (C9_resolve_within_base (fun _ => true) ["data", "models"]
      (by decide) "../../etc/passwd"
      ["data", "models", "passwd"]).1 rfl⟩

end MLForge
